import Mathlib

/-!
Shallow embedding of the vitals / tick-driver core of the hyperion server
(`crates/server/src/components.rs` and `crates/server/src/lib.rs`).

Rust `f32` / `f64` quantities (health, damage amounts, tick durations) are
modelled as exact rationals `ℚ`; `i64` ticks are modelled as `ℤ`; the unsigned
tick counters as `ℕ`.
-/

namespace Hyperion

/-- Modelled from the spec: the `Absorption` record lives in
`components/vitals.rs`, which is not part of the source snapshot.  Spec §3:
`Absorption = {end_tick, bonus_health}`; `end_tick` is compared against the
`i64` game tick in `Vitals::hurt`, `bonus_health` is an `f32` (here `ℚ`). -/
structure Absorption where
  end_tick : Int
  bonus_health : ℚ
deriving Repr, DecidableEq

/-- Modelled from the spec: the `Regeneration` record lives in
`components/vitals.rs`, which is not part of the source snapshot.  Spec §3:
`Regeneration = {end_tick, amount_per_tick}`.  `Vitals::hurt`/`heal` never
inspect it, so its exact fields are irrelevant to the claims. -/
structure Regeneration where
  end_tick : Int
  amount_per_tick : ℚ
deriving Repr, DecidableEq

/-- Modelled from the spec: `Absorption::DEFAULT` (no absorption; with
`end_tick = 0` and any `tick ≥ 0`, spec §3 treats it as zero bonus). -/
def Absorption.DEFAULT : Absorption := ⟨0, 0⟩

/-- Modelled from the spec: `Regeneration::DEFAULT` (no regeneration). -/
def Regeneration.DEFAULT : Regeneration := ⟨0, 0⟩

/-- `Vitals` from `components.rs`: either `Alive {health, absorption,
regeneration}` or `Dead {respawn_tick}`. -/
inductive Vitals where
  | Alive (health : ℚ) (absorption : Absorption) (regeneration : Regeneration)
  | Dead (respawn_tick : Int)
deriving Repr, DecidableEq

/-- `Vitals::ALIVE`: full health of 20 half-hearts, default effects. -/
def Vitals.ALIVE : Vitals := .Alive 20 Absorption.DEFAULT Regeneration.DEFAULT

/-- `ImmuneStatus` from `components.rs`: invulnerable while
`global.tick < until`. -/
structure ImmuneStatus where
  until_tick : Int
deriving Repr, DecidableEq

/-- Modelled from the spec: the `Global` struct lives in `global.rs`, which is
not part of the source snapshot.  Spec §3 gives the fields the claims need:
the current `tick` (an `i64` in `components.rs`) and `max_hurt_resistant_time`,
a nonnegative count of ticks of invulnerability granted per hit (converted with
`i64::from` before the division in `Vitals::hurt`). -/
structure Global where
  tick : Int
  max_hurt_resistant_time : Nat
deriving Repr, DecidableEq

/-- `ImmuneStatus::is_invincible`. -/
def ImmuneStatus.is_invincible (s : ImmuneStatus) (global : Global) : Bool :=
  global.tick < s.until_tick

/-- `Vitals::heal` (body after the two `assert!`s, which require the amount to
be finite and `> 0`): on `Alive`, `*health += amount; *health =
health.min(20.0)`; on `Dead`, no-op. -/
def Vitals.heal (v : Vitals) (amount : ℚ) : Vitals :=
  match v with
  | .Dead respawn_tick => .Dead respawn_tick
  | .Alive health absorption regeneration =>
      .Alive (min (health + amount) 20) absorption regeneration

/-- The tail of `Vitals::hurt` after the absorption block:
`*health -= amount; if *health <= 0.0 { *self = Dead { respawn_tick: tick + 100 } }`
(the Rust code reassigns `health` before the test; here the subtracted value is
written out at both uses). -/
def hurtTail (tick : Int) (health : ℚ) (absorption : Absorption)
    (regeneration : Regeneration) (amount : ℚ) : Vitals :=
  if health - amount ≤ 0 then .Dead (tick + 100)
  else .Alive (health - amount) absorption regeneration

/-- `Vitals::hurt` (body after the two `debug_assert!`s), returning the updated
`(Vitals, ImmuneStatus)` pair.  Mirrors the source: early return inside the
immunity window; otherwise the immunity is extended to
`tick + i64::from(max_hurt_resistant_time) / 2` before the `Alive` check (so it
is written in every path past the window, including for a `Dead` target); then
the absorption block (whose `else` arm returns without touching health), then
the health subtraction and death transition. -/
def Vitals.hurt (v : Vitals) (global : Global) (amount : ℚ) (imm : ImmuneStatus) :
    Vitals × ImmuneStatus :=
  if global.tick < imm.until_tick then
    (v, imm)
  else
    (match v with
     | .Dead respawn_tick => .Dead respawn_tick
     | .Alive health absorption regeneration =>
         if global.tick < absorption.end_tick then
           if amount > absorption.bonus_health then
             hurtTail global.tick health ⟨absorption.end_tick, 0⟩ regeneration
               (amount - absorption.bonus_health)
           else
             .Alive health ⟨absorption.end_tick, absorption.bonus_health - amount⟩
               regeneration
         else
           hurtTail global.tick health absorption regeneration amount,
     ⟨global.tick + (global.max_hurt_resistant_time : Int) / 2⟩)

/-- Which kind of Rust build is running, for claims distinguishing `assert!`
(active in every build) from `debug_assert!` (active only in debug builds). -/
inductive BuildMode where
  | debug
  | release
deriving Repr, DecidableEq

/-- `Vitals::heal` including its `assert!`s; `none` models a panic (process
abort).  `assert!` is compiled into BOTH debug and release builds, so the
`mode` parameter does not change the behaviour.  The finiteness assert
(`amount.is_finite()`) holds for every `ℚ`, so only `amount > 0.0` remains. -/
def healChecked (mode : BuildMode) (v : Vitals) (amount : ℚ) : Option Vitals :=
  match mode with
  | .debug => if amount > 0 then some (v.heal amount) else none
  | .release => if amount > 0 then some (v.heal amount) else none

/-- `Vitals::hurt` including its `debug_assert!`s; `none` models a panic.
`debug_assert!` is compiled out of release builds, where the call proceeds
with no check, no logging and no reset of the entity. -/
def hurtChecked (mode : BuildMode) (v : Vitals) (global : Global) (amount : ℚ)
    (imm : ImmuneStatus) : Option (Vitals × ImmuneStatus) :=
  match mode with
  | .debug => if amount ≥ 0 then some (v.hurt global amount imm) else none
  | .release => some (v.hurt global amount imm)

/-- One call against the vitals interface, for reachability over sequences of
operations (the heal amount and hurt amount are those the interface declares
legal: finite `> 0` for heal, finite `≥ 0` for hurt). -/
inductive VitalsOp where
  | heal (amount : ℚ)
  | hurt (global : Global) (amount : ℚ)
deriving Repr, DecidableEq

/-- A heal amount must be `> 0`, a hurt amount `≥ 0` (the interface asserts). -/
def VitalsOp.legal : VitalsOp → Prop
  | .heal amount => 0 < amount
  | .hurt _ amount => 0 ≤ amount

instance : DecidablePred VitalsOp.legal := by
  intro op
  cases op <;> simp only [VitalsOp.legal] <;> infer_instance

/-- Apply one vitals call to a `(Vitals, ImmuneStatus)` state. -/
def applyOp (s : Vitals × ImmuneStatus) : VitalsOp → Vitals × ImmuneStatus
  | .heal amount => (s.1.heal amount, s.2)
  | .hurt global amount => s.1.hurt global amount s.2

/-- Run a sequence of vitals calls from a starting state. -/
def runOps (s : Vitals × ImmuneStatus) (ops : List VitalsOp) : Vitals × ImmuneStatus :=
  ops.foldl applyOp s

/-- The immune status left after a sequence of `hurt` calls, each with its own
target `Vitals` and `Global` snapshot, threaded through one `ImmuneStatus`. -/
def hurtSeq (imm : ImmuneStatus) (calls : List (Vitals × Global × ℚ)) : ImmuneStatus :=
  calls.foldl (fun acc c => (c.1.hurt c.2.1 c.2.2 acc).2) imm

/-- `Duration::as_millis` for an exact nonnegative duration in seconds:
whole milliseconds, truncated. -/
def durationAsMillis (d : ℚ) : Int :=
  ⌊d * 1000⌋

/-- `Game::wait_duration` from `lib.rs`, over the deque `last_ticks` of recent
tick start instants (front first) and the current instant `now`, both as exact
times in seconds.  Mirrors the source: `None` from `front()?` on an empty
history; target instant `first_tick + count/20` seconds; `None` (skip sleep)
when the target is strictly past; otherwise `0.8 × (target − now)`, replaced by
exactly 47 ms when its truncated millisecond count exceeds 47. -/
def waitDuration (last_ticks : List ℚ) (now : ℚ) : Option ℚ :=
  match last_ticks.head? with
  | none => none
  | some first_tick =>
      let count := last_ticks.length
      let time_for_20_tps := first_tick + (count : ℚ) / 20
      if time_for_20_tps < now then
        none
      else
        let duration := time_for_20_tps - now
        let duration := duration * (8 / 10)
        if durationAsMillis duration > 47 then
          some (47 / 1000)
        else
          some duration

/-- `MSPT_HISTORY_SIZE` from `lib.rs`. -/
def MSPT_HISTORY_SIZE : Nat := 100

/-- The `StatsEvent` payload sent by `update_tick_stats`. -/
structure StatsEvent where
  ms_per_tick_mean_1s : ℚ
  ms_per_tick_mean_5s : ℚ
deriving Repr, DecidableEq

/-- The slice of `Game` state that `update_tick_stats` touches:
the deque of per-tick durations (front = oldest) and the tick counter. -/
structure GameStats where
  last_ms_per_tick : List ℚ
  tick_on : Nat
deriving Repr, DecidableEq

/-- Arithmetic mean of a list of samples (`ndarray` `mean`). -/
def listMean (l : List ℚ) : ℚ :=
  l.sum / l.length

/-- `Game::update_tick_stats` from `lib.rs`: push the new duration onto the
back of the deque; if the deque now holds more than `MSPT_HISTORY_SIZE`
entries, build the reversed sample array (most recent first), emit one
`StatsEvent` with the means of its first 20 and first 100 entries, and pop the
oldest entry; finally increment `tick_on`.  Returns the new state and the
emitted event, if any. -/
def update_tick_stats (g : GameStats) (ms : ℚ) : GameStats × Option StatsEvent :=
  if (g.last_ms_per_tick ++ [ms]).length > MSPT_HISTORY_SIZE then
    (⟨(g.last_ms_per_tick ++ [ms]).tail, g.tick_on + 1⟩,
      some ⟨listMean ((g.last_ms_per_tick ++ [ms]).reverse.take 20),
            listMean ((g.last_ms_per_tick ++ [ms]).reverse.take 100)⟩)
  else
    (⟨g.last_ms_per_tick ++ [ms], g.tick_on + 1⟩, none)

/-- Claim C9: inside the immunity window (`global.tick < immune.until`),
`hurt` is a complete no-op: both the vitals and the immune status are returned
exactly unchanged, for any amount. -/
theorem hurt_noop_when_immune (v : Vitals) (g : Global) (amount : ℚ)
    (imm : ImmuneStatus) (h : g.tick < imm.until_tick) :
    v.hurt g amount imm = (v, imm) := by
  simp [Vitals.hurt, h]

/-- Witness for `hurt_noop_when_immune`: a huge hit one tick before the window
expires changes nothing. -/
theorem hurt_noop_when_immune_witness :
    (Global.tick ⟨10, 10⟩ < ImmuneStatus.until_tick ⟨11⟩) ∧
      Vitals.hurt (.Alive 18 ⟨100, 0⟩ ⟨0, 0⟩) ⟨10, 10⟩ 100 ⟨11⟩ =
        (.Alive 18 ⟨100, 0⟩ ⟨0, 0⟩, ⟨11⟩) :=
  ⟨by decide, hurt_noop_when_immune _ _ _ _ (by decide)⟩

/-- Claim C2: whenever `hurt` is called past the immunity window
(`global.tick ≥ immune.until`), it sets `immune.until` to exactly
`global.tick + max_hurt_resistant_time / 2` (integer division), unconditionally:
for a `Dead` target, for a zero amount, and when absorption consumes all the
damage alike. -/
theorem hurt_grants_immunity_unconditionally (v : Vitals) (g : Global)
    (amount : ℚ) (imm : ImmuneStatus) (h : imm.until_tick ≤ g.tick) :
    (v.hurt g amount imm).2.until_tick =
      g.tick + ((g.max_hurt_resistant_time / 2 : Nat) : Int) := by
  have hn : ¬ g.tick < imm.until_tick := not_lt.mpr h
  unfold Vitals.hurt
  rw [if_neg hn]
  show g.tick + (g.max_hurt_resistant_time : Int) / 2 =
    g.tick + ((g.max_hurt_resistant_time / 2 : Nat) : Int)
  omega

/-- Witness for `hurt_grants_immunity_unconditionally`: a zero-damage hit on a
dead target at the exact expiry tick still sets the cooldown (with the odd
window 11 halved to 5). -/
theorem hurt_grants_immunity_unconditionally_witness :
    (ImmuneStatus.until_tick ⟨10⟩ ≤ Global.tick ⟨10, 11⟩) ∧
      ((Vitals.Dead 0).hurt ⟨10, 11⟩ 0 ⟨10⟩).2.until_tick =
        10 + ((11 / 2 : Nat) : Int) :=
  ⟨by decide, hurt_grants_immunity_unconditionally _ _ _ _ (by decide)⟩

/-- Claim C1: with an active absorption window and expired immunity, `hurt`
consumes absorption before health: an amount at most the bonus only shrinks the
bonus and leaves health untouched; a larger amount zeroes the bonus and takes
exactly the remainder out of health (stated for a surviving target, where the
resulting health field exists). -/
theorem hurt_consumes_absorption_before_health (health : ℚ) (a : Absorption)
    (r : Regeneration) (g : Global) (amount : ℚ) (imm : ImmuneStatus)
    (himm : imm.until_tick ≤ g.tick) (habs : g.tick < a.end_tick) :
    (amount ≤ a.bonus_health →
      (Vitals.Alive health a r).hurt g amount imm =
        (.Alive health ⟨a.end_tick, a.bonus_health - amount⟩ r,
          ⟨g.tick + (g.max_hurt_resistant_time : Int) / 2⟩)) ∧
    (a.bonus_health < amount → amount - a.bonus_health < health →
      (Vitals.Alive health a r).hurt g amount imm =
        (.Alive (health - (amount - a.bonus_health)) ⟨a.end_tick, 0⟩ r,
          ⟨g.tick + (g.max_hurt_resistant_time : Int) / 2⟩)) := by
  have hn : ¬ g.tick < imm.until_tick := not_lt.mpr himm
  constructor
  · intro hle
    have hng : ¬ amount > a.bonus_health := not_lt.mpr hle
    simp [Vitals.hurt, hn, habs, hng]
  · intro hgt hsurv
    have hnd : ¬ health - (amount - a.bonus_health) ≤ 0 := by linarith
    simp [Vitals.hurt, hurtTail, hn, habs, hgt, hnd]

/-- Witness for `hurt_consumes_absorption_before_health`: the spec's two
scenarios — health 20, bonus 5, absorption until tick 100, immunity expired,
at tick 10: a hit of 3 leaves health 20 and bonus 2; a hit of 7 leaves health
18 and bonus 0; both set immunity until tick 15. -/
theorem hurt_consumes_absorption_before_health_witness :
    Vitals.hurt (.Alive 20 ⟨100, 5⟩ ⟨0, 0⟩) ⟨10, 10⟩ 3 ⟨0⟩ =
        (.Alive 20 ⟨100, 2⟩ ⟨0, 0⟩, ⟨15⟩) ∧
      Vitals.hurt (.Alive 20 ⟨100, 5⟩ ⟨0, 0⟩) ⟨10, 10⟩ 7 ⟨0⟩ =
        (.Alive 18 ⟨100, 0⟩ ⟨0, 0⟩, ⟨15⟩) := by
  constructor
  · have h := (hurt_consumes_absorption_before_health 20 ⟨100, 5⟩ ⟨0, 0⟩ ⟨10, 10⟩ 3 ⟨0⟩
      (by decide) (by decide)).1 (by norm_num)
    rw [h]
    norm_num
  · have h := (hurt_consumes_absorption_before_health 20 ⟨100, 5⟩ ⟨0, 0⟩ ⟨10, 10⟩ 7 ⟨0⟩
      (by decide) (by decide)).2 (by norm_num) (by norm_num)
    rw [h]
    norm_num

/-- Claim C8: with no effective absorption (window over, or bonus already
consumed) and expired immunity, a hit of at least the (positive) current health
kills: the state becomes `Dead` with `respawn_tick = global.tick + 100`. -/
theorem hurt_lethal_dead_respawn (health : ℚ) (a : Absorption)
    (r : Regeneration) (g : Global) (amount : ℚ) (imm : ImmuneStatus)
    (himm : imm.until_tick ≤ g.tick)
    (habs : a.end_tick ≤ g.tick ∨ a.bonus_health = 0)
    (hpos : 0 < health) (hle : health ≤ amount) :
    (Vitals.Alive health a r).hurt g amount imm =
      (.Dead (g.tick + 100), ⟨g.tick + (g.max_hurt_resistant_time : Int) / 2⟩) := by
  have hn : ¬ g.tick < imm.until_tick := not_lt.mpr himm
  rcases habs with hend | hzero
  · have hw : ¬ g.tick < a.end_tick := not_lt.mpr hend
    have hd : health - amount ≤ 0 := by linarith
    simp [Vitals.hurt, hurtTail, hn, hw, hd]
  · by_cases hw : g.tick < a.end_tick
    · have hgt : (0 : ℚ) < amount := by linarith
      have hd : health - amount ≤ 0 := by linarith
      simp [Vitals.hurt, hurtTail, hn, hw, hgt, hzero, hd]
    · have hd : health - amount ≤ 0 := by linarith
      simp [Vitals.hurt, hurtTail, hn, hw, hd]

/-- Witness for `hurt_lethal_dead_respawn`: the spec's lethal scenario —
health 2, no absorption, expired immunity, a hit of 5 at tick 10 gives
`Dead {respawn_tick = 110}`. -/
theorem hurt_lethal_dead_respawn_witness :
    (ImmuneStatus.until_tick ⟨0⟩ ≤ Global.tick ⟨10, 10⟩) ∧
      (Absorption.end_tick ⟨0, 0⟩ ≤ Global.tick ⟨10, 10⟩ ∨
        Absorption.bonus_health ⟨0, 0⟩ = 0) ∧
      ((0 : ℚ) < 2) ∧ ((2 : ℚ) ≤ 5) ∧
      (Vitals.Alive 2 ⟨0, 0⟩ ⟨0, 0⟩).hurt ⟨10, 10⟩ 5 ⟨0⟩ =
        (.Dead 110, ⟨15⟩) :=
  ⟨by decide, Or.inl (by decide), by norm_num, by norm_num,
    hurt_lethal_dead_respawn 2 ⟨0, 0⟩ ⟨0, 0⟩ ⟨10, 10⟩ 5 ⟨0⟩ (by decide)
      (Or.inl (by decide)) (by norm_num) (by norm_num)⟩

/-- The Alive-health invariant of the spec: every `Alive` state carries
`0 < health ≤ 20`. -/
def AliveHealthOK (v : Vitals) : Prop :=
  ∀ health a r, v = .Alive health a r → 0 < health ∧ health ≤ 20

/-- The initial state `Vitals::ALIVE` satisfies the health invariant. -/
theorem aliveHealthOK_ALIVE : AliveHealthOK Vitals.ALIVE := by
  intro health a r heq
  simp only [Vitals.ALIVE, Vitals.Alive.injEq] at heq
  obtain ⟨h1, -, -⟩ := heq
  rw [← h1]
  norm_num

/-- `heal` with a positive amount preserves the health invariant: the clamp
`health.min(20.0)` keeps health at most 20, and adding a positive amount keeps
it positive. -/
theorem heal_preserves_healthOK (v : Vitals) (amount : ℚ) (hpos : 0 < amount)
    (hv : AliveHealthOK v) : AliveHealthOK (v.heal amount) := by
  cases v with
  | Dead t => intro health a r heq; simp [Vitals.heal] at heq
  | Alive h0 a0 r0 =>
      obtain ⟨hh0, -⟩ := hv h0 a0 r0 rfl
      intro health a r heq
      simp only [Vitals.heal, Vitals.Alive.injEq] at heq
      obtain ⟨h1, -, -⟩ := heq
      rw [← h1]
      refine ⟨lt_min (by linarith) (by norm_num), min_le_right _ _⟩

/-- The post-absorption tail of `hurt` preserves the health invariant: either
the target dies (vacuous) or its new health is positive by the guard and at
most the old health. -/
theorem hurtTail_healthOK (t : Int) (h0 : ℚ) (a : Absorption) (r : Regeneration)
    (amt : ℚ) (hamt : 0 ≤ amt) (hh : h0 ≤ 20) :
    AliveHealthOK (hurtTail t h0 a r amt) := by
  intro health a' r' heq
  unfold hurtTail at heq
  by_cases hc : h0 - amt ≤ 0
  · rw [if_pos hc] at heq
    cases heq
  · rw [if_neg hc] at heq
    cases heq
    constructor
    · linarith
    · linarith

/-- `hurt` with a nonnegative amount preserves the health invariant. -/
theorem hurt_preserves_healthOK (v : Vitals) (g : Global) (amount : ℚ)
    (imm : ImmuneStatus) (hamt : 0 ≤ amount) (hv : AliveHealthOK v) :
    AliveHealthOK (v.hurt g amount imm).1 := by
  by_cases himm : g.tick < imm.until_tick
  · simpa [Vitals.hurt, himm] using hv
  · cases v with
    | Dead t =>
        intro health a r heq
        simp [Vitals.hurt, himm] at heq
    | Alive h0 a0 r0 =>
        obtain ⟨hh0, hh20⟩ := hv h0 a0 r0 rfl
        simp only [Vitals.hurt, if_neg himm]
        split_ifs with hw hgt
        · exact hurtTail_healthOK _ _ _ _ _ (by linarith) hh20
        · intro health a r heq
          cases heq
          exact ⟨hh0, hh20⟩
        · exact hurtTail_healthOK _ _ _ _ _ hamt hh20

/-- Claim C3: from `Vitals::ALIVE`, any sequence of legal vitals calls
(positive heal amounts, nonnegative hurt amounts) leaves every state that is
still `Alive` with `0 < health ≤ 20`. -/
theorem alive_health_invariant (ops : List VitalsOp)
    (hops : ∀ op ∈ ops, op.legal) (imm0 : ImmuneStatus) :
    AliveHealthOK (runOps (Vitals.ALIVE, imm0) ops).1 := by
  suffices hgen : ∀ (l : List VitalsOp), (∀ op ∈ l, op.legal) →
      ∀ s : Vitals × ImmuneStatus, AliveHealthOK s.1 →
        AliveHealthOK (runOps s l).1 by
    exact hgen ops hops _ aliveHealthOK_ALIVE
  intro l
  induction l with
  | nil => intro _ s hs; exact hs
  | cons op rest ih =>
      intro hl s hs
      have hop : op.legal := hl op (List.mem_cons_self op rest)
      have hrest : ∀ o ∈ rest, o.legal := fun o ho => hl o (List.mem_cons_of_mem _ ho)
      have hstep : AliveHealthOK (applyOp s op).1 := by
        cases op with
        | heal amount => exact heal_preserves_healthOK _ _ hop hs
        | hurt g amount => exact hurt_preserves_healthOK _ _ _ _ hop hs
      exact ih hrest _ hstep

/-- Witness for `alive_health_invariant`: a concrete legal sequence — heal 5,
a hit of 7 at tick 3, a hit of 50 at tick 9 — applied from `Vitals::ALIVE`. -/
theorem alive_health_invariant_witness :
    (∀ op ∈ ([.heal 5, .hurt ⟨3, 10⟩ 7, .hurt ⟨9, 10⟩ 50] : List VitalsOp),
      op.legal) ∧
    AliveHealthOK
      (runOps (Vitals.ALIVE, ⟨0⟩)
        [.heal 5, .hurt ⟨3, 10⟩ 7, .hurt ⟨9, 10⟩ 50]).1 := by
  have hops : ∀ op ∈ ([.heal 5, .hurt ⟨3, 10⟩ 7, .hurt ⟨9, 10⟩ 50] : List VitalsOp),
      op.legal := by
    intro op hop
    simp only [List.mem_cons, List.not_mem_nil, or_false] at hop
    rcases hop with rfl | rfl | rfl <;> norm_num [VitalsOp.legal]
  exact ⟨hops, alive_health_invariant _ hops ⟨0⟩⟩

/-- `hurt` never lowers `immune.until`: untouched inside the window, and set to
`tick + max_hurt_resistant_time/2 ≥ tick ≥ old until` past it. -/
theorem until_le_hurt (v : Vitals) (g : Global) (amount : ℚ)
    (imm : ImmuneStatus) :
    imm.until_tick ≤ (v.hurt g amount imm).2.until_tick := by
  by_cases himm : g.tick < imm.until_tick
  · simp [Vitals.hurt, himm]
  · unfold Vitals.hurt
    rw [if_neg himm]
    show imm.until_tick ≤ g.tick + (g.max_hurt_resistant_time : Int) / 2
    push_neg at himm
    omega

/-- `hurtSeq` distributes over list append. -/
theorem hurtSeq_append (imm : ImmuneStatus) (l1 l2 : List (Vitals × Global × ℚ)) :
    hurtSeq imm (l1 ++ l2) = hurtSeq (hurtSeq imm l1) l2 := by
  simp [hurtSeq, List.foldl_append]

/-- A whole sequence of `hurt` calls never lowers `immune.until`. -/
theorem until_le_hurtSeq (imm : ImmuneStatus) (calls : List (Vitals × Global × ℚ)) :
    imm.until_tick ≤ (hurtSeq imm calls).until_tick := by
  induction calls generalizing imm with
  | nil => simp [hurtSeq]
  | cons c rest ih =>
      have h1 : imm.until_tick ≤ ((c.1.hurt c.2.1 c.2.2 imm).2).until_tick :=
        until_le_hurt c.1 c.2.1 c.2.2 imm
      have h2 := ih ((c.1.hurt c.2.1 c.2.2 imm).2)
      have h3 : hurtSeq imm (c :: rest) =
          hurtSeq ((c.1.hurt c.2.1 c.2.2 imm).2) rest := by
        simp [hurtSeq]
      rw [h3]
      exact le_trans h1 h2

/-- Claim C10: across any sequence of `hurt` calls threading one
`ImmuneStatus` (ticks non-decreasing, window nonnegative), `immune.until`
never decreases: at any two cut points `i ≤ j` of the call sequence the later
value is at least the earlier one. -/
theorem immune_until_monotone (imm : ImmuneStatus)
    (calls : List (Vitals × Global × ℚ))
    (_hticks : (calls.map fun c => c.2.1.tick).Chain' (· ≤ ·))
    (i j : Nat) (hij : i ≤ j) :
    (hurtSeq imm (calls.take i)).until_tick ≤
      (hurtSeq imm (calls.take j)).until_tick := by
  have h1 : (calls.take j).take i = calls.take i := by
    rw [List.take_take, min_eq_left hij]
  have h2 : hurtSeq imm (calls.take j) =
      hurtSeq (hurtSeq imm (calls.take i)) ((calls.take j).drop i) := by
    rw [← h1, ← hurtSeq_append, List.take_append_drop]
  rw [h2]
  exact until_le_hurtSeq _ _

/-- Witness for `immune_until_monotone`: two hits at increasing ticks, cut
points 1 ≤ 2. -/
theorem immune_until_monotone_witness :
    (([((Vitals.Dead 0 : Vitals), (⟨5, 4⟩ : Global), (0 : ℚ)),
        (Vitals.ALIVE, ⟨9, 6⟩, 1)].map fun c => c.2.1.tick).Chain' (· ≤ ·)) ∧
      (1 : Nat) ≤ 2 ∧
      (hurtSeq ⟨0⟩ ([(Vitals.Dead 0, ⟨5, 4⟩, 0),
          (Vitals.ALIVE, ⟨9, 6⟩, 1)].take 1)).until_tick ≤
        (hurtSeq ⟨0⟩ ([(Vitals.Dead 0, ⟨5, 4⟩, 0),
            (Vitals.ALIVE, ⟨9, 6⟩, 1)].take 2)).until_tick :=
  ⟨by simp, by norm_num,
    immune_until_monotone ⟨0⟩ _ (by simp) 1 2 (by norm_num)⟩

/-- Counterexample to claim C5 as stated: with history `[1]` (one tick start
at instant 1 s) and `now = 0.991 s`, the target is `1 + 1/20 = 1.05 s`, so the
raw sleep is `0.059 s` and `0.8 × 0.059 s = 47.2 ms`.  Its truncated
millisecond count is 47, not `> 47`, so the cap does NOT trigger and
`wait_duration` returns 47.2 ms — strictly more than 47 ms. -/
theorem waitDuration_result_can_exceed_47ms :
    waitDuration [1] (991 / 1000) = some (59 / 1250) ∧
      (47 / 1000 : ℚ) < 59 / 1250 := by
  have hfl : durationAsMillis ((59 : ℚ) / 1250) = 47 := by
    unfold durationAsMillis
    rw [show ((59 : ℚ) / 1250) * 1000 = 236 / 5 by norm_num]
    rw [Int.floor_eq_iff]
    norm_num
  constructor
  · simp only [waitDuration, List.head?_cons, List.length_cons, List.length_nil]
    norm_num [hfl]
  · norm_num

/-- Claim C5, amended: with a non-empty history whose front is `first_tick`,
`wait_duration` returns none exactly when the target instant
`first_tick + count/20 s` is strictly past; otherwise it returns
`0.8 × (target − now)`, replaced by exactly 47 ms only when that value's
truncated whole-millisecond count exceeds 47 — so the result never reaches
48 ms but can exceed 47 ms. -/
theorem waitDuration_spec (last_ticks : List ℚ) (now first_tick : ℚ)
    (hhead : last_ticks.head? = some first_tick) :
    (first_tick + (last_ticks.length : ℚ) / 20 < now →
      waitDuration last_ticks now = none) ∧
    (now ≤ first_tick + (last_ticks.length : ℚ) / 20 →
      ∃ d : ℚ,
        waitDuration last_ticks now = some d ∧
        d ≤ (first_tick + (last_ticks.length : ℚ) / 20 - now) * (8 / 10) ∧
        d < 48 / 1000 ∧
        (durationAsMillis
            ((first_tick + (last_ticks.length : ℚ) / 20 - now) * (8 / 10)) ≤ 47 →
          d = (first_tick + (last_ticks.length : ℚ) / 20 - now) * (8 / 10)) ∧
        (47 < durationAsMillis
            ((first_tick + (last_ticks.length : ℚ) / 20 - now) * (8 / 10)) →
          d = 47 / 1000)) := by
  have hwd : waitDuration last_ticks now =
      if first_tick + (last_ticks.length : ℚ) / 20 < now then none
      else
        if durationAsMillis
            ((first_tick + (last_ticks.length : ℚ) / 20 - now) * (8 / 10)) > 47 then
          some (47 / 1000)
        else
          some ((first_tick + (last_ticks.length : ℚ) / 20 - now) * (8 / 10)) := by
    unfold waitDuration
    rw [hhead]
  constructor
  · intro h
    rw [hwd, if_pos h]
  · intro h
    have hn : ¬ first_tick + (last_ticks.length : ℚ) / 20 < now := not_lt.mpr h
    by_cases hcap : durationAsMillis
        ((first_tick + (last_ticks.length : ℚ) / 20 - now) * (8 / 10)) > 47
    · refine ⟨47 / 1000, ?_, ?_, by norm_num,
        fun hle => absurd hle (by omega), fun _ => rfl⟩
      · rw [hwd, if_neg hn, if_pos hcap]
      · have h48 : (48 : Int) ≤
            ⌊(first_tick + (last_ticks.length : ℚ) / 20 - now) * (8 / 10) * 1000⌋ := by
          have := hcap
          unfold durationAsMillis at this
          omega
        have hq : (48 : ℚ) ≤
            (first_tick + (last_ticks.length : ℚ) / 20 - now) * (8 / 10) * 1000 := by
          have hc := Int.le_floor.mp h48
          exact_mod_cast hc
        linarith
    · refine ⟨_, ?_, le_refl _, ?_, fun _ => rfl,
        fun hgt => absurd hgt (by omega)⟩
      · rw [hwd, if_neg hn, if_neg hcap]
      · have h47 : ⌊(first_tick + (last_ticks.length : ℚ) / 20 - now) * (8 / 10) * 1000⌋
            ≤ 47 := by
          have := hcap
          unfold durationAsMillis at this
          omega
        have hlt := Int.lt_floor_add_one
          ((first_tick + (last_ticks.length : ℚ) / 20 - now) * (8 / 10) * 1000)
        have hc : ((⌊(first_tick + (last_ticks.length : ℚ) / 20 - now) * (8 / 10) * 1000⌋ :
            Int) : ℚ) ≤ 47 := by exact_mod_cast h47
        linarith

/-- Witness for `waitDuration_spec`: history `[0]` at `now = 0`; the target
`1/20 s` is not past, so a sleep of `0.8 × 1/20 s = 40 ms` is returned. -/
theorem waitDuration_spec_witness :
    (([(0 : ℚ)]).head? = some 0) ∧
      (((0 : ℚ) + (([(0 : ℚ)]).length : ℚ) / 20 < 0 →
        waitDuration [0] 0 = none) ∧
      ((0 : ℚ) ≤ 0 + (([(0 : ℚ)]).length : ℚ) / 20 →
        ∃ d : ℚ,
          waitDuration [0] 0 = some d ∧
          d ≤ ((0 : ℚ) + (([(0 : ℚ)]).length : ℚ) / 20 - 0) * (8 / 10) ∧
          d < 48 / 1000 ∧
          (durationAsMillis
              (((0 : ℚ) + (([(0 : ℚ)]).length : ℚ) / 20 - 0) * (8 / 10)) ≤ 47 →
            d = ((0 : ℚ) + (([(0 : ℚ)]).length : ℚ) / 20 - 0) * (8 / 10)) ∧
          (47 < durationAsMillis
              (((0 : ℚ) + (([(0 : ℚ)]).length : ℚ) / 20 - 0) * (8 / 10)) →
            d = 47 / 1000))) :=
  ⟨rfl, waitDuration_spec [0] 0 0 rfl⟩

/-- The mean over the last `n` samples can be read off either from the
reversed history or with `List.rtake`. -/
theorem listMean_rtake (l : List ℚ) (n : Nat) :
    listMean (l.rtake n) = listMean (l.reverse.take n) := by
  rw [List.rtake_eq_reverse_take_reverse]
  simp [listMean, List.sum_reverse, List.length_reverse]

/-- Claim C6: once the duration ring is full (100 samples), every call to
`update_tick_stats` emits exactly one `StatsEvent` whose fields are the means
of the 20 and the 100 most recent samples (the just-pushed one included), the
ring keeps exactly the 100 most recent samples, and — on every call, full ring
or not — `tick_on` grows by exactly 1. -/
theorem update_tick_stats_spec (g : GameStats) (ms : ℚ)
    (hfull : g.last_ms_per_tick.length = MSPT_HISTORY_SIZE) :
    (update_tick_stats g ms).2 =
      some ⟨listMean ((g.last_ms_per_tick ++ [ms]).rtake 20),
            listMean ((g.last_ms_per_tick ++ [ms]).rtake 100)⟩ ∧
    (update_tick_stats g ms).1.last_ms_per_tick =
      (g.last_ms_per_tick ++ [ms]).rtake MSPT_HISTORY_SIZE ∧
    (update_tick_stats g ms).1.tick_on = g.tick_on + 1 ∧
    (∀ (g0 : GameStats) (ms0 : ℚ),
      (update_tick_stats g0 ms0).1.tick_on = g0.tick_on + 1) := by
  have hlen : (g.last_ms_per_tick ++ [ms]).length = 101 := by
    simp [hfull, MSPT_HISTORY_SIZE]
  have hgt : (g.last_ms_per_tick ++ [ms]).length > MSPT_HISTORY_SIZE := by
    rw [hlen]
    norm_num [MSPT_HISTORY_SIZE]
  have htail : (g.last_ms_per_tick ++ [ms]).tail =
      (g.last_ms_per_tick ++ [ms]).rtake MSPT_HISTORY_SIZE := by
    show _ = (g.last_ms_per_tick ++ [ms]).drop
      ((g.last_ms_per_tick ++ [ms]).length - MSPT_HISTORY_SIZE)
    rw [hlen]
    norm_num [MSPT_HISTORY_SIZE, List.drop_one]
  refine ⟨?_, ?_, ?_, ?_⟩
  · unfold update_tick_stats
    rw [if_pos hgt, listMean_rtake, listMean_rtake]
  · unfold update_tick_stats
    rw [if_pos hgt]
    exact htail
  · unfold update_tick_stats
    rw [if_pos hgt]
  · intro g0 ms0
    unfold update_tick_stats
    by_cases h0 : (g0.last_ms_per_tick ++ [ms0]).length > MSPT_HISTORY_SIZE
    · rw [if_pos h0]
    · rw [if_neg h0]

/-- Witness for `update_tick_stats_spec`: a full ring of 100 samples of 2 ms
and a new 4 ms sample. -/
theorem update_tick_stats_spec_witness :
    (GameStats.last_ms_per_tick ⟨List.replicate 100 2, 5⟩).length =
        MSPT_HISTORY_SIZE ∧
      ((update_tick_stats ⟨List.replicate 100 2, 5⟩ 4).2 =
        some ⟨listMean ((List.replicate 100 (2 : ℚ) ++ [4]).rtake 20),
              listMean ((List.replicate 100 (2 : ℚ) ++ [4]).rtake 100)⟩ ∧
      (update_tick_stats ⟨List.replicate 100 2, 5⟩ 4).1.last_ms_per_tick =
        (List.replicate 100 (2 : ℚ) ++ [4]).rtake MSPT_HISTORY_SIZE ∧
      (update_tick_stats ⟨List.replicate 100 2, 5⟩ 4).1.tick_on = 5 + 1 ∧
      (∀ (g0 : GameStats) (ms0 : ℚ),
        (update_tick_stats g0 ms0).1.tick_on = g0.tick_on + 1)) :=
  ⟨by simp [MSPT_HISTORY_SIZE],
    update_tick_stats_spec ⟨List.replicate 100 2, 5⟩ 4 (by simp [MSPT_HISTORY_SIZE])⟩

/-- Counterexample to claim C7 as stated: in a RELEASE build a negative heal
amount still aborts the process (`assert!` stays active in release), instead of
being logged with the entity reset; and a negative hurt amount is neither fatal
nor logged nor reset in release (`debug_assert!` is compiled out) — the call
simply proceeds, here driving health up to 21, above the invariant bound. -/
theorem release_asserts_counterexample :
    healChecked .release Vitals.ALIVE (-1) = none ∧
      hurtChecked .release Vitals.ALIVE ⟨0, 0⟩ (-1) ⟨0⟩ =
        some (.Alive 21 ⟨0, 0⟩ ⟨0, 0⟩, ⟨0⟩) := by
  constructor
  · norm_num [healChecked]
  · norm_num [hurtChecked, Vitals.hurt, hurtTail, Vitals.ALIVE,
      Absorption.DEFAULT, Regeneration.DEFAULT]

/-- Claim C7, amended: a negative heal amount is fatal (`assert!`) in BOTH
debug and release builds; a negative hurt amount is fatal (`debug_assert!`)
only in debug builds, and in release builds `hurt` performs no check at all —
it proceeds with the invalid amount, with no logging and no reset to a safe
state. -/
theorem vitals_assert_build_modes (v : Vitals) (g : Global) (imm : ImmuneStatus)
    (amount : ℚ) (hneg : amount < 0) :
    healChecked .debug v amount = none ∧
    healChecked .release v amount = none ∧
    hurtChecked .debug v g amount imm = none ∧
    hurtChecked .release v g amount imm = some (v.hurt g amount imm) := by
  have h1 : ¬ amount > 0 := by linarith
  have h2 : ¬ amount ≥ 0 := by linarith
  exact ⟨by simp [healChecked, h1], by simp [healChecked, h1],
    by simp [hurtChecked, h2], by simp [hurtChecked]⟩

/-- Witness for `vitals_assert_build_modes` at amount `-1`. -/
theorem vitals_assert_build_modes_witness :
    ((-1 : ℚ) < 0) ∧
      (healChecked .debug Vitals.ALIVE (-1) = none ∧
      healChecked .release Vitals.ALIVE (-1) = none ∧
      hurtChecked .debug Vitals.ALIVE ⟨0, 0⟩ (-1) ⟨0⟩ = none ∧
      hurtChecked .release Vitals.ALIVE ⟨0, 0⟩ (-1) ⟨0⟩ =
        some (Vitals.ALIVE.hurt ⟨0, 0⟩ (-1) ⟨0⟩)) :=
  ⟨by norm_num,
    vitals_assert_build_modes Vitals.ALIVE ⟨0, 0⟩ ⟨0⟩ (-1) (by norm_num)⟩

end Hyperion
